import Mathlib

/-!
Verification development for the alien-translator repository.

We give a shallow embedding, in Lean, of the translation-queue core:
`src/utils/translator.py` (language gating, link handling, translation with
error fallback) and `src/utils/queue_manager.py` (the sequential worker loop,
rate limiting, lifecycle controls and configuration persistence), together
with the relevant command handlers of `src/bot.py`.  External collaborators
(the language-detection library, the OpenAI call, the Discord channel lookup)
are modelled as explicit oracles passed in as parameters; everything else is
translated directly from the Python source.
-/

namespace AlienTranslator

/-! ## Python string primitives used by translator.py -/

/-- Whitespace characters recognised by Python's `str.strip` / `str.split`. -/
def pyWhitespace (c : Char) : Bool :=
  c = ' ' || c = '\t' || c = '\n' || c = '\r' || c = '\x0b' || c = '\x0c'

def pyStripList (cs : List Char) : List Char :=
  ((cs.dropWhile pyWhitespace).reverse.dropWhile pyWhitespace).reverse

/-- Python `text.strip()`. -/
def pyStrip (s : String) : String := String.mk (pyStripList s.toList)

/-- Python `text.lower()` (ASCII range, which is all the source relies on). -/
def pyLower (s : String) : String := String.mk (s.toList.map Char.toLower)

def pySplitGo : List Char → List Char → List String
  | [], acc => if acc = [] then [] else [String.mk acc.reverse]
  | c :: rest, acc =>
    if pyWhitespace c then
      if acc = [] then pySplitGo rest []
      else String.mk acc.reverse :: pySplitGo rest []
    else pySplitGo rest (c :: acc)

/-- Python `text.split()` with no argument: split on whitespace runs. -/
def pySplit (s : String) : List String := pySplitGo s.toList []

/-! ## translator.py: the link-only regular expressions

`is_link_only` matches the stripped text against
`^https?:\/\/[-a-zA-Z0-9@:%._\+~#=]{1,256}\.[a-zA-Z0-9()]{1,6}\b(?:[-a-zA-Z0-9()@:%_\+.~#?&\/=]*)$`
or the Discord attachment pattern
`^https?:\/\/(?:cdn\.)?discord(?:app)?\.com\/attachments\/\d+\/\d+\/[^ ]+$`.
We implement the two concrete patterns directly (existence of a decomposition
for the anchored form; leftmost-greedy lengths for the `finditer` form). -/

def isAsciiAlphaNum (c : Char) : Bool := c.isAlpha || c.isDigit

/-- Character class `[-a-zA-Z0-9@:%._\+~#=]`. -/
def charA (c : Char) : Bool :=
  isAsciiAlphaNum c || c = '-' || c = '@' || c = ':' || c = '%' || c = '.' ||
    c = '_' || c = '+' || c = '~' || c = '#' || c = '='

/-- Character class `[a-zA-Z0-9()]`. -/
def charB (c : Char) : Bool := isAsciiAlphaNum c || c = '(' || c = ')'

/-- Character class `[-a-zA-Z0-9()@:%_\+.~#?&\/=]`. -/
def charC (c : Char) : Bool :=
  isAsciiAlphaNum c || c = '-' || c = '(' || c = ')' || c = '@' || c = ':' ||
    c = '%' || c = '_' || c = '+' || c = '.' || c = '~' || c = '#' ||
    c = '?' || c = '&' || c = '/' || c = '='

/-- Regex word character, for the `\b` assertion. -/
def isWordChar (c : Char) : Bool := isAsciiAlphaNum c || c = '_'

/-- The `\b` word-boundary assertion between an optional previous and next
character (out-of-string counts as a non-word character). -/
def boundaryAfter (prev : Option Char) (next : Option Char) : Bool :=
  (match prev with | some c => isWordChar c | none => false)
    != (match next with | some c => isWordChar c | none => false)

/-- Consume `https?:\/\/` at the head of the character list. -/
def stripScheme : List Char → Option (List Char)
  | 'h' :: 't' :: 't' :: 'p' :: rest =>
    match rest with
    | 's' :: ':' :: '/' :: '/' :: r => some r
    | ':' :: '/' :: '/' :: r => some r
    | _ => none
  | _ => none

/-- Anchored tail of the first pattern after the scheme:
`A{1,256} \. B{1,6} \b C* $` matches the whole of `r` for some decomposition. -/
def urlTailOk (r : List Char) : Bool :=
  (List.range (min 256 r.length)).any (fun i0 =>
    let i := i0 + 1
    (r.take i).all charA &&
    (match r.drop i with
     | '.' :: r2 =>
       (List.range 6).any (fun j0 =>
         let j := j0 + 1
         let b := r2.take j
         b.length == j && b.all charB &&
           (r2.drop j).all charC &&
           boundaryAfter b.getLast? (r2.drop j).head?)
     | _ => false))

def matchUrlFull (cs : List Char) : Bool :=
  match stripScheme cs with
  | some r => urlTailOk r
  | none => false

/-- Consume a literal string; `none` when it is not a prefix of the input. -/
def dropLit : List Char → List Char → Option (List Char)
  | [], cs => some cs
  | _ :: _, [] => none
  | l :: ls, c :: cs => if c = l then dropLit ls cs else none

def digitRun (cs : List Char) : Nat := (cs.takeWhile Char.isDigit).length

/-- Anchored tail of the Discord attachment pattern after the scheme:
`(?:cdn\.)?discord(?:app)?\.com\/attachments\/\d+\/\d+\/[^ ]+$`. The two
optional groups are unambiguous because `discord` starts with `d` and `.com`
starts with `.`, so neither alternative overlaps the required literal. -/
def discordTail (r : List Char) : Bool :=
  let r1 := match dropLit "cdn.".toList r with | some x => x | none => r
  match dropLit "discord".toList r1 with
  | none => false
  | some r2 =>
    let r3 := match dropLit "app".toList r2 with | some x => x | none => r2
    match dropLit ".com/attachments/".toList r3 with
    | none => false
    | some r4 =>
      let d1 := digitRun r4
      if d1 = 0 then false else
      match r4.drop d1 with
      | '/' :: r5 =>
        let d2 := digitRun r5
        if d2 = 0 then false else
        match r5.drop d2 with
        | '/' :: r6 => !r6.isEmpty && r6.all (fun c => c != ' ')
        | _ => false
      | _ => false

def matchDiscordFull (cs : List Char) : Bool :=
  match stripScheme cs with
  | some r => discordTail r
  | none => false

/-- `is_link_only(text)` from translator.py: strip, then test the two anchored
patterns (`url_pattern.match or discord_attachment_pattern.match`). -/
def is_link_only (text : String) : Bool :=
  let t := pyStripList text.toList
  matchUrlFull t || matchDiscordFull t

/-! ## translator.py: finding links inside a message

`translate_message_with_links` scans the raw text with `finditer` over the
unanchored alternation of the two URL patterns.  We compute the length of the
leftmost-greedy match at a given position: the first pattern backtracks its
`{1,256}` and `{1,6}` counters from the largest value down, and the `*` / `+`
tails are maximal runs. -/

/-- `[k, k-1, ..., 1]`: candidate repeat counts in greedy (descending) order. -/
def descRange (k : Nat) : List Nat := (List.range k).reverse.map (fun x => x + 1)

/-- Greedy match length of `A{1,256}\.B{1,6}\bC*` against a prefix of `r`. -/
def urlTailLen (r : List Char) : Option Nat :=
  let aMax := min 256 (r.takeWhile charA).length
  (descRange aMax).findSome? (fun i =>
    match r.drop i with
    | '.' :: r2 =>
      let bMax := min 6 (r2.takeWhile charB).length
      (descRange bMax).findSome? (fun j =>
        let rest := r2.drop j
        if boundaryAfter (r2.take j).getLast? rest.head? then
          some (i + 1 + j + (rest.takeWhile charC).length)
        else none)
    | _ => none)

def matchUrlAt (cs : List Char) : Option Nat :=
  match stripScheme cs with
  | none => none
  | some r =>
    match urlTailLen r with
    | some tl => some (cs.length - r.length + tl)
    | none => none

/-- Greedy match length of the Discord attachment pattern tail
`(?:cdn\.)?discord(?:app)?\.com\/attachments\/\d+\/\d+\/[^ ]+` in `r`. -/
def discordTailLen (r : List Char) : Option Nat :=
  let r1 := match dropLit "cdn.".toList r with | some x => x | none => r
  match dropLit "discord".toList r1 with
  | none => none
  | some r2 =>
    let r3 := match dropLit "app".toList r2 with | some x => x | none => r2
    match dropLit ".com/attachments/".toList r3 with
    | none => none
    | some r4 =>
      let d1 := digitRun r4
      if d1 = 0 then none else
      match r4.drop d1 with
      | '/' :: r5 =>
        let d2 := digitRun r5
        if d2 = 0 then none else
        match r5.drop d2 with
        | '/' :: r6 =>
          let ns := (r6.takeWhile (fun c => c != ' ')).length
          if ns = 0 then none else some (r.length - r6.length + ns)
        | _ => none
      | _ => none

def matchDiscordAt (cs : List Char) : Option Nat :=
  match stripScheme cs with
  | none => none
  | some r =>
    match discordTailLen r with
    | some tl => some (cs.length - r.length + tl)
    | none => none

/-- Match length at a position for the combined `url_pattern` of
`translate_message_with_links` (first alternative tried first). -/
def findMatchAt (cs : List Char) : Option Nat :=
  match matchUrlAt cs with
  | some l => some l
  | none => matchDiscordAt cs

/-- `url_pattern.finditer(text)`: scan left to right, at each position take the
match (if any) and continue after it.  Returns `(start, length)` pairs.  The
fuel argument is only a structural termination measure: every step consumes at
least one character, so `cs.length` units always suffice. -/
def scanIterF : Nat → List Char → List (Nat × Nat)
  | 0, _ => []
  | _, [] => []
  | fuel + 1, c :: rest =>
    match findMatchAt (c :: rest) with
    | some l =>
      (0, l) :: (scanIterF fuel (rest.drop (l - 1))).map (fun p => (p.1 + l, p.2))
    | none => (scanIterF fuel rest).map (fun p => (p.1 + 1, p.2))

def scanIter (cs : List Char) : List (Nat × Nat) := scanIterF cs.length cs

/-- One entry of the `parts` list built by `translate_message_with_links`. -/
inductive Part
  | txt (s : String)
  | link (s : String)
deriving Repr, DecidableEq

def sliceStr (cs : List Char) (a b : Nat) : String :=
  String.mk ((cs.drop a).take (b - a))

/-- The loop over `url_pattern.finditer(text)` plus the trailing-text append
(translator.py lines 256-270). -/
def buildParts (cs : List Char) : Nat → List (Nat × Nat) → List Part
  | lastEnd, [] =>
    if lastEnd < cs.length then [Part.txt (sliceStr cs lastEnd cs.length)] else []
  | lastEnd, (st, l) :: ms =>
    (if lastEnd < st then [Part.txt (sliceStr cs lastEnd st)] else []) ++
      (Part.link (sliceStr cs st (st + l)) :: buildParts cs (st + l) ms)

def splitParts (text : String) : List Part :=
  buildParts text.toList 0 (scanIter text.toList)

/-! ## translator.py: `translate`

The external collaborators — `langdetect.detect` and the OpenAI chat call —
are oracles carried in a `TrEnv`; `translate` itself (the branch structure of
translator.py lines 34-196) is embedded directly. -/

/-- Outcome of the OpenAI API call as seen by `translate`'s `try` block. -/
inductive ApiResp
  | raised
  | noContent
  | content (s : String)

/-- Oracles for translator.py's external collaborators: `langdetect.detect`
(which may throw), the presence of `OPENAI_API_KEY`, and the chat API. -/
structure TrEnv where
  detect : String → Except Unit String
  apiKey : Bool
  api : String → ApiResp

/-- The `common_english_words` set literal of translator.py (lines 49-119). -/
def commonEnglishWords : List String :=
  ["hello", "hi", "hey", "bye", "ok", "yes", "no", "thanks", "please",
   "lol", "lmao", "good", "bad", "nice", "cool", "awesome", "great",
   "wow", "omg", "wtf", "idk", "what", "when", "where", "why", "how",
   "who", "this", "that", "these", "those", "the", "and", "for", "are",
   "but", "not", "you", "all", "can", "her", "was", "one", "our", "out",
   "day", "get", "has", "him", "his", "how", "its", "may", "new", "now",
   "old", "see", "two", "way", "who", "boy", "did", "didnt", "let",
   "put", "say", "she", "too", "use"]

def countCommon (ws : List String) : Nat :=
  (ws.filter (fun w => commonEnglishWords.contains w)).length

/-- The gate `english_word_ratio > 0.6` of translator.py, i.e. the exact
rational comparison `count / len > 6/10`, written over naturals so that it
computes; `ratioGt_iff` below proves it equal to the rational form. -/
def ratioGt (count len : Nat) : Bool := decide (6 * len < 10 * count)

/-- translator.py lines 151-196: API-key check, client check, the API call and
its `except` clause.  Every failure path returns the ORIGINAL text (`return
text  # Return original text if translation fails`), never `None`. -/
def translateApiCall (E : TrEnv) (text : String) : Option String :=
  if E.apiKey = false then some text
  else
    match E.api text with
    | .raised => some text
    | .noContent => some text
    | .content c => some (pyStrip c)

/-- `translate(text, target)` from translator.py: empty check, link check,
common-English-word ratio gate, `langdetect` gate (exceptions proceed), then
the API call.  `none` models Python `None`. -/
def translate (E : TrEnv) (text : String) : Option String :=
  if pyStrip text = "" then none
  else if is_link_only text then none
  else
    let words := pySplit (pyStrip (pyLower text))
    if words.length ≠ 0 ∧ ratioGt (countCommon words) words.length = true then
      none
    else
      match E.detect text with
      | .ok l => if l = "en" then none else translateApiCall E text
      | .error _ => translateApiCall E text

/-- The `result_parts` loop of `translate_message_with_links` (lines 284-299):
text parts are translated (dropped when `translate` yields `None` or they are
whitespace-only), link parts are kept as-is. -/
def joinParts (E : TrEnv) : List Part → List String
  | [] => []
  | Part.txt c :: rest =>
    if pyStrip c = "" then joinParts E rest
    else
      match translate E c with
      | some t => t :: joinParts E rest
      | none => joinParts E rest
  | Part.link l :: rest => l :: joinParts E rest

/-- `translate_message_with_links(text, target)` from translator.py. -/
def translate_message_with_links (E : TrEnv) (text : String) : Option String :=
  if is_link_only text then none
  else
    let parts := splitParts text
    if parts = [] then translate E text
    else
      let rp := joinParts E parts
      if rp = [] then none else some (String.join rp)

/-! ## queue_manager.py: configuration persistence

The config file is modelled by its three observable read outcomes: missing
(`FileNotFoundError`), malformed (`json.JSONDecodeError`), or good contents.
Delays are rationals (Python floats in the source). -/

/-- The `"queueSettings"` object of config.json; the `"rateLimitDelay"` key
may be absent. -/
structure QSettings where
  rateLimitDelay : Option ℚ
deriving Repr, DecidableEq

/-- The parsed config file, restricted to the key the queue touches. -/
structure ConfigData where
  queueSettings : Option QSettings
deriving Repr, DecidableEq

inductive FileState
  | missing
  | malformed
  | good (c : ConfigData)
deriving Repr, DecidableEq

def defaultQSettings : QSettings := ⟨none⟩

/-- `_load_config` (queue_manager.py lines 129-140): both read failures are
caught and produce `{}`. -/
def load_config : FileState → QSettings
  | .good c => c.queueSettings.getD defaultQSettings
  | .missing => defaultQSettings
  | .malformed => defaultQSettings

/-- `__init__` line 21: `self._load_config().get("rateLimitDelay", 1.0)`. -/
def initDelay (fs : FileState) : ℚ := (load_config fs).rateLimitDelay.getD 1

/-- `_save_config` (lines 142-162): read the file (read failures fall back to
`{}`), overwrite the `queueSettings` key, write back; a write failure is
caught and leaves the file as it was. -/
def save_config (fs : FileState) (writeOk : Bool) (delay : ℚ) : FileState :=
  let config : ConfigData :=
    match fs with
    | .good c => c
    | .missing => ⟨none⟩
    | .malformed => ⟨none⟩
  let config2 : ConfigData := { config with queueSettings := some ⟨some delay⟩ }
  if writeOk then .good config2 else fs

/-- The rate-limit delay recorded in a config file, if any. -/
def savedDelay : FileState → Option ℚ
  | .good c => (c.queueSettings.getD defaultQSettings).rateLimitDelay
  | _ => none

/-! ## queue_manager.py: the worker loop

`MessageJob` carries the message content and the destination channel from
`guild_cfg["target"]` (author/avatar/timestamp only decorate the embed).
The external translation function and `bot.get_channel` are oracles in `Env`:
`TrOutcome.raised` models `translate_message_with_links` raising (handled by
the worker's `except` clause at lines 107-113), `TrOutcome.value` its normal
return.  `published` records, in order, the texts handed to the dispatch
bridge (`asyncio.run_coroutine_threadsafe(target_channel.send(...))`);
`slept` accumulates the `time.sleep(self.rate_limit_delay)` calls. -/

structure Job where
  content : String
  target : Nat
deriving Repr, DecidableEq

inductive Event
  | fetch (j : Job)
  | dispatch (j : Job) (t : String)
deriving Repr, DecidableEq

inductive TrOutcome
  | raised
  | value (r : Option String)
deriving Repr, DecidableEq

structure Env where
  tr : String → TrOutcome
  getChannel : Nat → Bool

structure MgrState where
  queue : List Job
  current : Option Job
  published : List String
  trace : List Event
  slept : ℚ
  delay : ℚ
  file : FileState
deriving Repr, DecidableEq

/-- `job = self.translation_queue.get(timeout=1.0)` (line 57): pop the head;
an empty queue (`Empty`) just continues the loop. -/
def fetchJob (s : MgrState) : MgrState :=
  match s.queue with
  | [] => s
  | j :: rest =>
    { s with queue := rest, current := some j, trace := s.trace ++ [Event.fetch j] }

/-- The rest of the loop body (lines 64-113): translate the fetched job, skip
on `None` (no sleep), otherwise build the embed and, when the target channel
resolves, hand it to the dispatch bridge, then sleep the rate-limit delay;
an exception is caught, the job dropped, and the loop continues (no sleep). -/
def completeJob (env : Env) (s : MgrState) : MgrState :=
  match s.current with
  | none => s
  | some j =>
    match env.tr j.content with
    | .raised => { s with current := none }
    | .value none => { s with current := none }
    | .value (some t) =>
      if env.getChannel j.target then
        { s with current := none,
                 published := s.published ++ [t],
                 trace := s.trace ++ [Event.dispatch j t],
                 slept := s.slept + s.delay }
      else
        { s with current := none, slept := s.slept + s.delay }

/-- Iterating `_process_queue`'s loop body until the queue is drained.  The
list argument tracks the queue contents as the loop's termination measure. -/
def runFrom (env : Env) : List Job → MgrState → MgrState
  | [], s => s
  | _ :: rest, s => runFrom env rest (completeJob env (fetchJob s))

def runWorker (env : Env) (s : MgrState) : MgrState := runFrom env s.queue s

/-- The manager as built by `__init__` with `jobs` already enqueued. -/
def initState (jobs : List Job) (fs : FileState) : MgrState :=
  { queue := jobs, current := none, published := [], trace := [],
    slept := 0, delay := initDelay fs, file := fs }

/-- What one job contributes to `published`: its translated text, when the
translation yields text and the target channel resolves. -/
def pubOf (env : Env) (j : Job) : Option String :=
  match env.tr j.content with
  | .value (some t) => if env.getChannel j.target then some t else none
  | _ => none

/-- The worker-loop events one job produces, in order. -/
def jobEvents (env : Env) (j : Job) : List Event :=
  Event.fetch j ::
    (match env.tr j.content with
     | .value (some t) => if env.getChannel j.target then [Event.dispatch j t] else []
     | _ => [])

/-- The rate-limit sleep one job incurs: the current delay after a
translation that yielded text, nothing otherwise. -/
def jobSleep (env : Env) (d : ℚ) (j : Job) : ℚ :=
  match env.tr j.content with
  | .value (some _) => d
  | _ => 0

def totalSleep (env : Env) (d : ℚ) : List Job → ℚ
  | [] => 0
  | j :: rest => jobSleep env d j + totalSleep env d rest

/-! ## queue_manager.py: clear, rate limit, and the bot commands -/

/-- The `while not self.translation_queue.empty(): get_nowait()` drain loop of
`clear_queue` (lines 172-177). -/
def drainClear : List Job → List Job
  | [] => []
  | _ :: rest => drainClear rest

/-- `clear_queue` (lines 169-178): drain the pending store.  The Python
function returns `None`; its log line reports `qsize()` measured AFTER the
drain. -/
def clear_queue (s : MgrState) : MgrState := { s with queue := drainClear s.queue }

/-- The count printed by `clear_queue`'s log line: the post-drain size. -/
def clearLoggedCount (s : MgrState) : Nat := (drainClear s.queue).length

/-- The `/queueclear` handler (bot.py lines 107-109): read `get_queue_size()`
FIRST, then call `clear_queue()`, and report the pre-read size. -/
def queueclear (s : MgrState) : MgrState × Nat := (clear_queue s, s.queue.length)

/-- `set_rate_limit` (lines 164-167): assign the delay, then `_save_config`.
No bounds check happens here. -/
def set_rate_limit (writeOk : Bool) (s : MgrState) (d : ℚ) : MgrState :=
  let s2 := { s with delay := d }
  { s2 with file := save_config s2.file writeOk s2.delay }

/-- The `/queuerate` handler (bot.py lines 81-94): reject a delay outside
`[0.1, 10.0]`, otherwise call `set_rate_limit`.  The Bool reports acceptance. -/
def queuerate (writeOk : Bool) (s : MgrState) (d : ℚ) : MgrState × Bool :=
  if d < 1 / 10 ∨ 10 < d then (s, false)
  else (set_rate_limit writeOk s d, true)

/-! ## queue_manager.py: worker lifecycle as an interleaved transition system

`add_message` / `start` / `resume` perform a non-atomic check-and-start: the
caller reads `worker_running` / `worker_thread.is_alive()` (one atomic step),
then spawns and starts a thread (another step); the spawned thread sets
`worker_running = True` only when it is first scheduled (line 49).  `pause` /
`stop` clear the flag; a looping thread exits only when it observes the
cleared flag at the top of its loop (line 53).  Threads are numbered by
spawn order; `alive` and `begun` record, per thread, liveness and whether it
has executed its first statement. -/

inductive LOp
  /-- A caller evaluates the `if not self.worker_running or ...` condition. -/
  | check (c : Nat)
  /-- The same caller then spawns and starts a thread iff its check was true. -/
  | spawn (c : Nat)
  /-- A spawned thread runs `self.worker_running = True` and enters the loop. -/
  | beginW (t : Nat)
  /-- A looping thread observes the cleared flag and exits. -/
  | observe (t : Nat)
  /-- `pause()` / `stop()`: `self.worker_running = False`. -/
  | pauseOp
  /-- `start()` / `resume()` / `add_message` run sequentially, with the new
  thread scheduled immediately: check, spawn and first statement as one step. -/
  | startSeq
deriving Repr, DecidableEq

structure LST where
  flag : Bool
  handle : Option Nat
  alive : List Bool
  begun : List Bool
  pend : List (Nat × Bool)
deriving Repr, DecidableEq

/-- `__init__`: `worker_running = False`, `worker_thread = None`. -/
def LST.start0 : LST := ⟨false, none, [], [], []⟩

/-- `not self.worker_running or (self.worker_thread and not
self.worker_thread.is_alive())` (lines 36, 119, 187). -/
def condStart (s : LST) : Bool :=
  !s.flag ||
    (match s.handle with
     | some t => !(s.alive.getD t false)
     | none => false)

def lookupPend (p : List (Nat × Bool)) (c : Nat) : Option Bool :=
  (p.find? (fun x => x.1 == c)).map (fun x => x.2)

/-- One atomic step; `none` when the op is not enabled in this state. -/
def execOp (s : LST) : LOp → Option LST
  | .check c =>
    match lookupPend s.pend c with
    | some _ => none
    | none => some { s with pend := (c, condStart s) :: s.pend }
  | .spawn c =>
    match lookupPend s.pend c with
    | none => none
    | some b =>
      let s2 := { s with pend := s.pend.filter (fun x => x.1 != c) }
      if b then
        some { s2 with handle := some s2.alive.length,
                       alive := s2.alive ++ [true],
                       begun := s2.begun ++ [false] }
      else some s2
  | .beginW t =>
    if s.alive.getD t false = true ∧ s.begun.getD t true = false then
      some { s with flag := true, begun := s.begun.set t true }
    else none
  | .observe t =>
    if s.alive.getD t false = true ∧ s.begun.getD t false = true ∧ s.flag = false then
      some { s with alive := s.alive.set t false }
    else none
  | .pauseOp => some { s with flag := false }
  | .startSeq =>
    if condStart s then
      some { s with flag := true, handle := some s.alive.length,
                    alive := s.alive ++ [true], begun := s.begun ++ [true] }
    else some s

def runOps (ops : List LOp) : Option LST :=
  ops.foldl (fun acc op => acc.bind (fun s => execOp s op)) (some LST.start0)

/-- Number of live worker threads of control. -/
def aliveCount (s : LST) : Nat := (s.alive.filter (fun b => b = true)).length

/-! ## Concrete scenario data -/

/-- The translation stub of the spec's three-job scenario: `"bonjour" →
"hello there"`, `"hello" → nothing`, `"hola" → "hi"`. -/
def stubTr : String → TrOutcome := fun t =>
  if t = "bonjour" then .value (some "hello there")
  else if t = "hola" then .value (some "hi")
  else .value none

def stubEnv : Env := ⟨stubTr, fun _ => true⟩

def demoJobs : List Job := [⟨"bonjour", 1⟩, ⟨"hello", 1⟩, ⟨"hola", 1⟩]

/-- Oracles under which the translation API call reports an error: language
detection says Italian, the API key is present, the API call raises. -/
def errEnvT : TrEnv := ⟨fun _ => Except.ok "it", true, fun _ => ApiResp.raised⟩

/-- The worker environment wired to the real `translate_message_with_links`
under `errEnvT`, with every channel resolving. -/
def errQEnv : Env :=
  ⟨fun t => TrOutcome.value (translate_message_with_links errEnvT t), fun _ => true⟩

/-- Two concurrent `add_message` callers, both interleaving their check-side
read before either spawns, then both spawning and both threads beginning. -/
def raceOps : List LOp :=
  [.check 0, .check 1, .spawn 0, .spawn 1, .beginW 0, .beginW 1]

/-- `start()`; `pause()`; `start()` again before the paused worker thread has
observed the cleared flag at the top of its loop. -/
def dupStartOps : List LOp := [.startSeq, .pauseOp, .startSeq]

/-! ## Helper lemmas -/

/-- One loop iteration on a non-empty queue: pop the head, process it fully. -/
lemma step_spec (env : Env) (s : MgrState) (j : Job) (rest : List Job)
    (h : s.queue = j :: rest) :
    completeJob env (fetchJob s) =
      { s with queue := rest, current := none,
               published := s.published ++ (pubOf env j).toList,
               trace := s.trace ++ jobEvents env j,
               slept := s.slept + jobSleep env s.delay j } := by
  obtain ⟨q, cur, pub, tra, sl, dl, fl⟩ := s
  simp only at h
  subst h
  cases htr : env.tr j.content with
  | raised =>
    simp [fetchJob, completeJob, pubOf, jobEvents, jobSleep, htr]
  | value o =>
    cases o with
    | none =>
      simp [fetchJob, completeJob, pubOf, jobEvents, jobSleep, htr]
    | some t =>
      cases hch : env.getChannel j.target with
      | false =>
        simp [fetchJob, completeJob, pubOf, jobEvents, jobSleep, htr, hch]
      | true =>
        simp [fetchJob, completeJob, pubOf, jobEvents, jobSleep, htr, hch,
          List.append_assoc]

/-- Full characterisation of draining a queue `q` from a state whose queue is
`q`: published texts, trace, final queue, total sleep, and the frame (delay
and config file untouched). -/
lemma runFrom_spec (env : Env) (q : List Job) :
    ∀ s : MgrState, s.queue = q →
      (runFrom env q s).published = s.published ++ q.filterMap (pubOf env) ∧
      (runFrom env q s).trace = s.trace ++ q.flatMap (jobEvents env) ∧
      (runFrom env q s).queue = [] ∧
      (runFrom env q s).slept = s.slept + totalSleep env s.delay q ∧
      (runFrom env q s).delay = s.delay ∧
      (runFrom env q s).file = s.file := by
  induction q with
  | nil =>
    intro s h
    refine ⟨by simp [runFrom], by simp [runFrom], ?_, by simp [runFrom, totalSleep],
      rfl, rfl⟩
    simpa [runFrom] using h
  | cons j rest ih =>
    intro s h
    have hs := step_spec env s j rest h
    have hrec := ih (completeJob env (fetchJob s)) (by rw [hs])
    rw [hs] at hrec
    obtain ⟨hp, ht, hq, hsl, hdl, hfl⟩ := hrec
    simp only at hp ht hq hsl hdl hfl
    have hfm : (j :: rest).filterMap (pubOf env) =
        (pubOf env j).toList ++ rest.filterMap (pubOf env) := by
      cases hpj : pubOf env j <;> simp [hpj]
    refine ⟨?_, ?_, ?_, ?_, ?_, ?_⟩
    · rw [show runFrom env (j :: rest) s =
        runFrom env rest (completeJob env (fetchJob s)) from rfl, hs, hp, hfm,
        List.append_assoc]
    · rw [show runFrom env (j :: rest) s =
        runFrom env rest (completeJob env (fetchJob s)) from rfl, hs, ht,
        List.flatMap_cons, List.append_assoc]
    · rw [show runFrom env (j :: rest) s =
        runFrom env rest (completeJob env (fetchJob s)) from rfl, hs]
      exact hq
    · rw [show runFrom env (j :: rest) s =
        runFrom env rest (completeJob env (fetchJob s)) from rfl, hs, hsl,
        totalSleep, add_assoc]
    · rw [show runFrom env (j :: rest) s =
        runFrom env rest (completeJob env (fetchJob s)) from rfl, hs]
      exact hdl
    · rw [show runFrom env (j :: rest) s =
        runFrom env rest (completeJob env (fetchJob s)) from rfl, hs]
      exact hfl

/-- The `clear_queue` drain loop discards every pending job. -/
lemma drainClear_eq_nil : ∀ q : List Job, drainClear q = []
  | [] => rfl
  | _ :: rest => drainClear_eq_nil rest

/-- `ratioGt` is the source's `english_word_ratio > 0.6` comparison: for a
non-empty word list it holds exactly when `count / len > 6 / 10` as rationals. -/
lemma ratioGt_iff (count len : Nat) (h : 0 < len) :
    ratioGt count len = true ↔ (6 : ℚ) / 10 < (count : ℚ) / (len : ℚ) := by
  have h10 : (0 : ℚ) < 10 := by norm_num
  have hl : (0 : ℚ) < (len : ℚ) := by exact_mod_cast h
  rw [ratioGt, div_lt_div_iff₀ h10 hl, decide_eq_true_eq]
  constructor
  · intro hlt
    have : (6 * len : ℚ) < (10 * count : ℚ) := by exact_mod_cast hlt
    linarith
  · intro hlt
    have : (6 * len : ℚ) < (10 * count : ℚ) := by linarith
    exact_mod_cast this

/-! ## The claims -/

/-- Claim C1: for every sequence of jobs enqueued in order J1..JN and every
translation oracle (hence regardless of per-job translation latency), the
worker's event trace is exactly the per-job event blocks concatenated in
enqueue order — each job is fully completed (fetched, translated, and, when
translation yields text and the channel resolves, handed to the dispatch
bridge) before the next job is fetched — and the published texts appear in
exactly the enqueue order. -/
theorem claim_C1_fifo_publish_order (env : Env) (jobs : List Job) (fs : FileState) :
    (runWorker env (initState jobs fs)).trace = jobs.flatMap (jobEvents env) ∧
    (runWorker env (initState jobs fs)).published = jobs.filterMap (pubOf env) := by
  obtain ⟨hp, ht, -, -, -, -⟩ := runFrom_spec env jobs (initState jobs fs) rfl
  constructor
  · simpa [runWorker, initState] using ht
  · simpa [runWorker, initState] using hp

/-- Claim C2, counterexample: a job whose translation call reports an error is
NOT discarded.  Under oracles where language detection succeeds (Italian) and
the OpenAI call raises, `translate` catches the error and returns the original
text (translator.py line 196), so the worker publishes the untranslated
original — something IS published for that job. -/
theorem claim_C2_counterexample :
    translate errEnvT "ziao belo" = some "ziao belo" ∧
    (runWorker errQEnv (initState [⟨"ziao belo", 1⟩] FileState.missing)).published =
      ["ziao belo"] := by
  constructor
  · decide
  · decide

/-- Claim C2, amended: a job whose translation processing raises an uncaught
exception (propagating into the worker's `except` clause) is discarded —
nothing is published for it, and the remaining jobs are still processed with
the same published output; the worker does fetch the job (the trace keeps its
fetch event) and drains the whole queue. -/
theorem claim_C2_raised_job_discarded (env : Env) (j : Job) (rest : List Job)
    (fs : FileState) (h : env.tr j.content = TrOutcome.raised) :
    (runWorker env (initState (j :: rest) fs)).published =
      (runWorker env (initState rest fs)).published ∧
    (runWorker env (initState (j :: rest) fs)).trace =
      Event.fetch j :: (runWorker env (initState rest fs)).trace ∧
    (runWorker env (initState (j :: rest) fs)).queue = [] := by
  obtain ⟨hp1, ht1, hq1, -, -, -⟩ :=
    runFrom_spec env (j :: rest) (initState (j :: rest) fs) rfl
  obtain ⟨hp2, ht2, -, -, -, -⟩ := runFrom_spec env rest (initState rest fs) rfl
  refine ⟨?_, ?_, ?_⟩
  · rw [show runWorker env (initState (j :: rest) fs) =
      runFrom env (j :: rest) (initState (j :: rest) fs) from rfl, hp1,
      show runWorker env (initState rest fs) =
      runFrom env rest (initState rest fs) from rfl, hp2]
    simp [initState, pubOf, h]
  · rw [show runWorker env (initState (j :: rest) fs) =
      runFrom env (j :: rest) (initState (j :: rest) fs) from rfl, ht1,
      show runWorker env (initState rest fs) =
      runFrom env rest (initState rest fs) from rfl, ht2]
    simp [initState, jobEvents, h]
  · rw [show runWorker env (initState (j :: rest) fs) =
      runFrom env (j :: rest) (initState (j :: rest) fs) from rfl]
    exact hq1

theorem claim_C2_raised_job_discarded_witness :
    (Env.mk (fun _ => TrOutcome.raised) (fun _ => true)).tr "boom" =
      TrOutcome.raised ∧
    (runWorker (Env.mk (fun _ => TrOutcome.raised) (fun _ => true))
        (initState [⟨"boom", 1⟩, ⟨"hola", 2⟩] FileState.missing)).published =
      (runWorker (Env.mk (fun _ => TrOutcome.raised) (fun _ => true))
        (initState [⟨"hola", 2⟩] FileState.missing)).published :=
  ⟨rfl, (claim_C2_raised_job_discarded
    (Env.mk (fun _ => TrOutcome.raised) (fun _ => true)) ⟨"boom", 1⟩
    [⟨"hola", 2⟩] FileState.missing rfl).1⟩

/-- Claim C3, counterexample: the check-and-start in `add_message` (lines
36-38) is neither atomic nor idempotent.  Two concurrent callers can both
evaluate the condition before either spawns (the spawned thread only sets
`worker_running` when first scheduled), after which both spawn: the
interleaving `raceOps` is enabled from the initial state and ends with TWO
live worker loops, refuting "exactly one live worker loop, never more than
one" at M = 2. -/
theorem claim_C3_counterexample :
    (runOps raceOps).map aliveCount = some 2 ∧
    (runOps raceOps).map LST.flag = some true := by
  decide

/-- Claim C3, amended: when each enqueue's check-and-start runs atomically
(check, spawn, and the new thread's first statement as one step — e.g. the
callers are serialised), M ≥ 1 enqueues from the initial state yield exactly
one live worker loop: never zero and never more than one. -/
theorem claim_C3_atomic_enqueue_one_worker (n : Nat) (h : 1 ≤ n) :
    runOps (List.replicate n LOp.startSeq) =
      some (LST.mk true (some 0) [true] [true] []) ∧
    (runOps (List.replicate n LOp.startSeq)).map aliveCount = some 1 := by
  obtain ⟨m, rfl⟩ : ∃ m, n = m + 1 := ⟨n - 1, by omega⟩
  have hstep : execOp (LST.mk true (some 0) [true] [true] []) LOp.startSeq =
      some (LST.mk true (some 0) [true] [true] []) := by decide
  have hfold : ∀ k, List.foldl (fun acc op => acc.bind (fun s => execOp s op))
      (some (LST.mk true (some 0) [true] [true] []))
      (List.replicate k LOp.startSeq) =
      some (LST.mk true (some 0) [true] [true] []) := by
    intro k
    induction k with
    | zero => rfl
    | succ k2 ih => simpa [List.replicate_succ, hstep] using ih
  have h1 : runOps (List.replicate (m + 1) LOp.startSeq) =
      some (LST.mk true (some 0) [true] [true] []) := by
    rw [List.replicate_succ]
    show List.foldl _ _ (LOp.startSeq :: List.replicate m LOp.startSeq) = _
    rw [List.foldl_cons]
    exact hfold m
  exact ⟨h1, by rw [h1]; decide⟩

theorem claim_C3_atomic_enqueue_one_worker_witness :
    1 ≤ 3 ∧
    (runOps (List.replicate 3 LOp.startSeq)).map aliveCount = some 1 :=
  ⟨by decide, (claim_C3_atomic_enqueue_one_worker 3 (by decide)).2⟩

/-- Claim C4, counterexample: on a queue of K = 2 pending jobs, `clear_queue`
does not make the count K available: the Python function returns `None`, and
the only count it produces — its log line — reads `qsize()` AFTER the drain,
so it reports 0, not 2. -/
theorem claim_C4_counterexample :
    (initState [Job.mk "a" 1, Job.mk "b" 2] FileState.missing).queue.length = 2 ∧
    clearLoggedCount (initState [Job.mk "a" 1, Job.mk "b" 2] FileState.missing) = 0 := by
  decide

/-- Claim C4, amended: `clear_queue` removes all K pending jobs and leaves the
queue at size 0, but itself returns no count (its log always reports the
post-drain size, 0); the caller obtains K by reading the queue size before
clearing, which is exactly what the `/queueclear` handler reports. -/
theorem claim_C4_clear_drains_caller_reports (s : MgrState) :
    (clear_queue s).queue = [] ∧
    clearLoggedCount s = 0 ∧
    (queueclear s).2 = s.queue.length ∧
    ((queueclear s).1).queue = [] := by
  refine ⟨?_, ?_, rfl, ?_⟩ <;>
    simp [clear_queue, clearLoggedCount, queueclear, drainClear_eq_nil]

/-- Claim C5: a job whose translation yields no result is discarded with no
publish and no rate-limit sleep — the loop body leaves everything but the
in-flight slot unchanged and proceeds immediately; and in the three-job
scenario "bonjour", "hello", "hola" under the spec's stub, exactly
"hello there" then "hi" are published, in that order, with only the two
translated jobs contributing a rate-limit delay (total sleep 2 × 1.0s). -/
theorem claim_C5_skip_no_delay (env : Env) (s : MgrState) (j : Job)
    (h1 : s.current = some j) (h2 : env.tr j.content = TrOutcome.value none) :
    completeJob env s = { s with current := none } ∧
    (runWorker stubEnv (initState demoJobs FileState.missing)).published =
      ["hello there", "hi"] ∧
    (runWorker stubEnv (initState demoJobs FileState.missing)).slept = 2 := by
  refine ⟨?_, by decide, ?_⟩
  · simp [completeJob, h1, h2]
  · obtain ⟨-, -, -, hsl, -, -⟩ :=
      runFrom_spec stubEnv demoJobs (initState demoJobs FileState.missing) rfl
    rw [show runWorker stubEnv (initState demoJobs FileState.missing) =
      runFrom stubEnv demoJobs (initState demoJobs FileState.missing) from rfl, hsl]
    show (0 : ℚ) + totalSleep stubEnv (initDelay FileState.missing) demoJobs = 2
    have hd : initDelay FileState.missing = 1 := rfl
    rw [hd]
    simp [demoJobs, totalSleep, jobSleep, stubEnv, stubTr]
    norm_num

theorem claim_C5_skip_no_delay_witness :
    ({ initState [] FileState.missing with
        current := some (Job.mk "hello" 1) } : MgrState).current =
      some (Job.mk "hello" 1) ∧
    stubEnv.tr "hello" = TrOutcome.value none ∧
    completeJob stubEnv
        { initState [] FileState.missing with current := some (Job.mk "hello" 1) } =
      { ({ initState [] FileState.missing with
          current := some (Job.mk "hello" 1) } : MgrState) with current := none } :=
  ⟨rfl, by decide,
    (claim_C5_skip_no_delay stubEnv
      { initState [] FileState.missing with current := some (Job.mk "hello" 1) }
      (Job.mk "hello" 1) rfl (by decide)).1⟩

/-- Claim C6: the `/queuerate` path of `setRateLimit` validates the delay
against the configured bounds [0.1, 10.0] before accepting it (out-of-bounds
delays are rejected with no state change), updates the single shared
`rate_limit_delay`, persists it to the config file, and the new delay is what
the worker sleeps on its next rate-limit sleep. -/
theorem claim_C6_rate_limit_validated (s : MgrState) (writeOk : Bool)
    (d dbad : ℚ) (env : Env) (j : Job) (t : String)
    (h1 : 1 / 10 ≤ d) (h2 : d ≤ 10)
    (h3 : dbad < 1 / 10 ∨ 10 < dbad)
    (h4 : env.tr j.content = TrOutcome.value (some t)) :
    queuerate writeOk s dbad = (s, false) ∧
    (queuerate writeOk s d).2 = true ∧
    (queuerate writeOk s d).1.delay = d ∧
    savedDelay ((queuerate true s d).1.file) = some d ∧
    (completeJob env { (queuerate writeOk s d).1 with current := some j }).slept =
      (queuerate writeOk s d).1.slept + d := by
  have hno : ¬(d < 1 / 10 ∨ 10 < d) := by
    push_neg
    exact ⟨h1, h2⟩
  have hrej : queuerate writeOk s dbad = (s, false) := by
    unfold queuerate
    rw [if_pos h3]
  have hacc : queuerate writeOk s d = (set_rate_limit writeOk s d, true) := by
    unfold queuerate
    rw [if_neg hno]
  have hacc2 : queuerate true s d = (set_rate_limit true s d, true) := by
    unfold queuerate
    rw [if_neg hno]
  refine ⟨hrej, by rw [hacc], ?_, ?_, ?_⟩
  · rw [hacc]
    simp [set_rate_limit]
  · rw [hacc2]
    simp [set_rate_limit, save_config, savedDelay, defaultQSettings]
  · rw [hacc]
    cases hch : env.getChannel j.target with
    | false => simp [set_rate_limit, completeJob, h4, hch]
    | true => simp [set_rate_limit, completeJob, h4, hch]

theorem claim_C6_rate_limit_validated_witness :
    ((1 : ℚ) / 10 ≤ 2 ∧ (2 : ℚ) ≤ 10 ∧ ((20 : ℚ) < 1 / 10 ∨ (10 : ℚ) < 20)) ∧
    queuerate true (initState [] FileState.missing) 20 =
      ((initState [] FileState.missing), false) ∧
    (queuerate true (initState [] FileState.missing) 2).2 = true ∧
    savedDelay ((queuerate true (initState [] FileState.missing) 2).1.file) =
      some 2 :=
  ⟨⟨by norm_num, by norm_num, Or.inr (by norm_num)⟩,
    (claim_C6_rate_limit_validated (initState [] FileState.missing) true 2 20
      (Env.mk (fun _ => TrOutcome.value (some "x")) (fun _ => true))
      (Job.mk "hi" 1) "x" (by norm_num) (by norm_num) (Or.inr (by norm_num)) rfl).1,
    (claim_C6_rate_limit_validated (initState [] FileState.missing) true 2 20
      (Env.mk (fun _ => TrOutcome.value (some "x")) (fun _ => true))
      (Job.mk "hi" 1) "x" (by norm_num) (by norm_num) (Or.inr (by norm_num)) rfl).2.1,
    (claim_C6_rate_limit_validated (initState [] FileState.missing) true 2 20
      (Env.mk (fun _ => TrOutcome.value (some "x")) (fun _ => true))
      (Job.mk "hi" 1) "x" (by norm_num) (by norm_num) (Or.inr (by norm_num)) rfl).2.2.2.1⟩

/-- Claim C7, counterexample: `start()` while a worker thread is already
ALIVE is not always a no-op.  After `start(); pause()` one worker thread is
still alive (it exits only after next observing the cleared flag), yet its
running flag is cleared, so a second `start()` passes the `not
self.worker_running or ...` check and spawns an additional thread: two live
worker loops. -/
theorem claim_C7_counterexample :
    (runOps [LOp.startSeq, LOp.pauseOp]).map aliveCount = some 1 ∧
    (runOps dupStartOps).map aliveCount = some 2 := by
  decide

/-- Claim C7, amended: `pause()` when already paused leaves the state
unchanged, and `start()` — and `resume()`, whose body (lines 185-190) is the
condition-for-condition copy of `start()` — when the worker is already
RUNNING (flag set AND its thread alive) is a no-op spawning no additional
thread; only `start()`/`resume()` in the window where a live thread has been
paused but not yet exited spawns a duplicate (the counterexample). -/
theorem claim_C7_lifecycle_idempotent (s1 s2 : LST) (t : Nat)
    (h1 : s1.flag = false)
    (h2 : s2.flag = true) (h3 : s2.handle = some t)
    (h4 : s2.alive.getD t false = true) :
    execOp s1 LOp.pauseOp = some s1 ∧
    execOp s2 LOp.startSeq = some s2 := by
  constructor
  · obtain ⟨f, hd, a, b, p⟩ := s1
    simp only at h1
    subst h1
    rfl
  · have hc : condStart s2 = false := by
      simp only [condStart, h2, h3]
      simp only [List.getD, List.get?_eq_getElem?] at h4
      simp [h4]
    simp [execOp, hc]

theorem claim_C7_lifecycle_idempotent_witness :
    (LST.mk false none [] [] []).flag = false ∧
    (LST.mk true (some 0) [true] [true] []).flag = true ∧
    (LST.mk true (some 0) [true] [true] []).handle = some 0 ∧
    (LST.mk true (some 0) [true] [true] []).alive.getD 0 false = true ∧
    execOp (LST.mk false none [] [] []) LOp.pauseOp =
      some (LST.mk false none [] [] []) ∧
    execOp (LST.mk true (some 0) [true] [true] []) LOp.startSeq =
      some (LST.mk true (some 0) [true] [true] []) :=
  ⟨rfl, rfl, rfl, rfl,
    (claim_C7_lifecycle_idempotent (LST.mk false none [] [] [])
      (LST.mk true (some 0) [true] [true] []) 0 rfl rfl rfl rfl).1,
    (claim_C7_lifecycle_idempotent (LST.mk false none [] [] [])
      (LST.mk true (some 0) [true] [true] []) 0 rfl rfl rfl rfl).2⟩

/-- Claim C8: configuration read/write failure is never fatal.  A missing or
malformed config file loads as the empty settings, so the startup delay falls
back to the 1.0s default (and a stored value is honoured); a failed write in
`_save_config` leaves the file as it was while the in-memory delay keeps the
newly assigned (last-known) value; and the worker never consults the config
file — running it with any file state publishes the same texts and leaves the
file untouched. -/
theorem claim_C8_config_failure_fallback (dq : ℚ) (fs : FileState) (d : ℚ)
    (s : MgrState) (env : Env) :
    load_config FileState.missing = defaultQSettings ∧
    load_config FileState.malformed = defaultQSettings ∧
    initDelay FileState.missing = 1 ∧
    initDelay FileState.malformed = 1 ∧
    initDelay (FileState.good ⟨some ⟨some dq⟩⟩) = dq ∧
    save_config fs false d = fs ∧
    (set_rate_limit false s d).delay = d ∧
    (set_rate_limit false s d).file = s.file ∧
    (runWorker env { s with file := fs }).published =
      (runWorker env s).published ∧
    (runWorker env { s with file := fs }).file = fs := by
  obtain ⟨hp1, -, -, -, -, hf1⟩ :=
    runFrom_spec env s.queue { s with file := fs } rfl
  obtain ⟨hp2, -, -, -, -, -⟩ := runFrom_spec env s.queue s rfl
  refine ⟨rfl, rfl, rfl, rfl, by simp [initDelay, load_config, defaultQSettings],
    by simp [save_config], by simp [set_rate_limit], ?_, ?_, ?_⟩
  · simp [set_rate_limit, save_config]
  · rw [show runWorker env { s with file := fs } =
      runFrom env s.queue { s with file := fs } from rfl, hp1,
      show runWorker env s = runFrom env s.queue s from rfl, hp2]
  · rw [show runWorker env { s with file := fs } =
      runFrom env s.queue { s with file := fs } from rfl, hf1]

/-- Claim C9: `clear_queue` mutates only the pending-job store — it empties
the queue and nothing else — and it commutes with completing the in-flight
job: a job already popped (held in the worker's local variable) at the time
of the clear still completes identically, publishing the same text when its
translation yields one. -/
theorem claim_C9_clear_frame (env : Env) (s : MgrState) :
    clear_queue s = { s with queue := [] } ∧
    (clear_queue s).current = s.current ∧
    (clear_queue s).published = s.published ∧
    completeJob env (clear_queue s) = clear_queue (completeJob env s) ∧
    (completeJob env (clear_queue s)).published = (completeJob env s).published := by
  have hcq : clear_queue s = { s with queue := [] } := by
    simp [clear_queue, drainClear_eq_nil]
  have hcomm : completeJob env (clear_queue s) = clear_queue (completeJob env s) := by
    rw [hcq]
    obtain ⟨q, cur, pub, tra, sl, dl, fl⟩ := s
    cases cur with
    | none => simp [completeJob, clear_queue, drainClear_eq_nil]
    | some j =>
      cases htr : env.tr j.content with
      | raised => simp [completeJob, clear_queue, drainClear_eq_nil, htr]
      | value o =>
        cases o with
        | none => simp [completeJob, clear_queue, drainClear_eq_nil, htr]
        | some t =>
          cases hch : env.getChannel j.target with
          | false => simp [completeJob, clear_queue, drainClear_eq_nil, htr, hch]
          | true => simp [completeJob, clear_queue, drainClear_eq_nil, htr, hch]
  refine ⟨hcq, by rw [hcq], by rw [hcq], hcomm, ?_⟩
  rw [hcomm]
  have : ∀ s2 : MgrState, (clear_queue s2).published = s2.published := by
    intro s2; simp [clear_queue]
  exact this (completeJob env s)

/-- Claim C10: every message whose entire content matches the link-only
patterns is mapped to `None` by `translate_message_with_links` (its first
check), so a link-only job contributes nothing to the published output of a
worker run wired to the real translation function: the queue with the
link-only job publishes exactly what the queue without it publishes. -/
theorem claim_C10_link_only_discarded (E : TrEnv) (j : Job)
    (pre post : List Job) (fs : FileState) (ch : Nat → Bool)
    (h : is_link_only j.content = true) :
    translate_message_with_links E j.content = none ∧
    (runWorker (Env.mk (fun t => TrOutcome.value (translate_message_with_links E t)) ch)
        (initState (pre ++ j :: post) fs)).published =
      (runWorker (Env.mk (fun t => TrOutcome.value (translate_message_with_links E t)) ch)
        (initState (pre ++ post) fs)).published := by
  have h0 : translate_message_with_links E j.content = none := by
    simp [translate_message_with_links, h]
  refine ⟨h0, ?_⟩
  obtain ⟨hp1, -, -, -, -, -⟩ :=
    runFrom_spec (Env.mk (fun t => TrOutcome.value (translate_message_with_links E t)) ch)
      (pre ++ j :: post) (initState (pre ++ j :: post) fs) rfl
  obtain ⟨hp2, -, -, -, -, -⟩ :=
    runFrom_spec (Env.mk (fun t => TrOutcome.value (translate_message_with_links E t)) ch)
      (pre ++ post) (initState (pre ++ post) fs) rfl
  rw [show runWorker (Env.mk (fun t => TrOutcome.value (translate_message_with_links E t)) ch)
      (initState (pre ++ j :: post) fs) =
      runFrom (Env.mk (fun t => TrOutcome.value (translate_message_with_links E t)) ch)
      (pre ++ j :: post) (initState (pre ++ j :: post) fs) from rfl, hp1,
    show runWorker (Env.mk (fun t => TrOutcome.value (translate_message_with_links E t)) ch)
      (initState (pre ++ post) fs) =
      runFrom (Env.mk (fun t => TrOutcome.value (translate_message_with_links E t)) ch)
      (pre ++ post) (initState (pre ++ post) fs) from rfl, hp2]
  have hpj : pubOf (Env.mk (fun t => TrOutcome.value (translate_message_with_links E t)) ch) j
      = none := by
    simp [pubOf, h0]
  simp [initState, List.filterMap_append, hpj]

theorem claim_C10_link_only_discarded_witness :
    is_link_only "https://example.com" = true ∧
    translate_message_with_links
        (TrEnv.mk (fun _ => Except.ok "en") false (fun _ => ApiResp.raised))
        "https://example.com" = none :=
  ⟨by decide,
    (claim_C10_link_only_discarded
      (TrEnv.mk (fun _ => Except.ok "en") false (fun _ => ApiResp.raised))
      (Job.mk "https://example.com" 1) [] [] FileState.missing (fun _ => true)
      (by decide)).1⟩

end AlienTranslator
